import Mathlib

/-!
# Verification of the gopherbouncedb persistence engine

A shallow embedding, in Lean 4, of the parts of the `gopherbouncedb` Go
package that the specification's claims are about:

* the user and session data model (`UserModel`, `SessionEntry`, `UserID`),
  from `user.go` / `session.go`;
* the shared error taxonomy (`Err` collects the package's error types
  `NoSuchUser`, `UserExists`, `AmbiguousCredentials`, `NotSupported`,
  `SessionExists`, `NoSuchSession`, `RollbackErr`, `RetryInsertErr`; the
  extra constructor `Backend` stands for an arbitrary driver-level or
  `fmt.Errorf`-created Go `error`);
* the in-memory reference storage (`MemdummyUserStorage`,
  `MemdummySessionStorage` from `memdummy.go`), with Go maps embedded as
  association lists;
* the generic SQL engine (`SQLUserStorage` from `sql.go`), with the
  `database/sql` backend abstracted into outcome functions: `Exec` is a
  function from statement text and arguments to an `ExecOutcome`, and
  transactions are begin/exec/rollback/commit outcomes.  Each engine
  operation additionally returns the list of backend calls it performed,
  so that "no backend call is made" is statable;
* session key generation (`GenSessionKey`), with `crypto/rand` abstracted
  into a byte stream and `base64.RawURLEncoding` embedded directly;
* the bounded retry helper (`RetrySessionInsert`), with the storage
  abstracted into a state-passing insert function;
* the query-template replacer (`SQLTemplateReplacer.Apply`), embedding the
  documented semantics of Go's `strings.Replacer`: replacements are
  performed in target-string order without overlapping matches, ties at a
  position are broken by argument order, and replaced text is not
  re-scanned.  The argument order is the (unspecified) iteration order of
  the Go map `entries`, so `Apply` is modelled on an explicit enumeration
  of the entries.

Go `time.Time` values are embedded as `Int` instants; `UTC()` only changes
the display location of a `time.Time`, not the instant, so it is the
identity here.  `time.Time.Before` is `<` on instants, and the zero time
is the instant `0`.  Machine `int64` arithmetic never comes near overflow
in the modelled paths, so `UserID` is `Int`.
-/

namespace GopherBounceDB

/-- Go `strings.ToLower` restricted to the ASCII range, which is all the
source ever lowers (Go field names). -/
def goToLower (s : String) : String := ⟨s.toList.map Char.toLower⟩

/-- `UserID` is the id of a user stored in a database (`int64` in Go). -/
abbrev UserID := Int

/-- `InvalidUserID` is the reserved sentinel: no valid id. -/
def InvalidUserID : UserID := -1

/-- The package's error taxonomy as one inductive: each constructor is one
of the package's error types; `Backend` stands for any other Go `error`
(driver errors, `fmt.Errorf` results). -/
inductive Err where
  | NoSuchUser (msg : String)
  | UserExists (msg : String)
  | AmbiguousCredentials (msg : String)
  | NotSupported (initial : Err)
  | SessionExists (msg : String)
  | NoSuchSession (msg : String)
  | RollbackErr (initialErr rollbackErr : Err)
  | RetryInsertErr (errs : List Err)
  | Backend (msg : String)

/-- The `Error()` method of each error type.  For `RetryInsertErr` only the
fixed header of the message is modelled (no code path in the package reads
the `Error()` string of a `RetryInsertErr`, and modelling the enumeration
would need recursion through the list). -/
def Err.Error : Err → String
  | .NoSuchUser m => m
  | .UserExists m => m
  | .AmbiguousCredentials m => m
  | .NotSupported e => "LastInsertID not supported by driver: " ++ e.Error
  | .SessionExists m => m
  | .NoSuchSession m => m
  | .RollbackErr ie re =>
      "statement failed: " ++ ie.Error ++ ", unable to rollback: " ++ re.Error
  | .RetryInsertErr _ => "failed to insert session, accumulated the following errors:"
  | .Backend m => m

/-- The Go type assertion `err.(SessionExists)` of `RetrySessionInsert`. -/
def Err.isSessionExists : Err → Bool
  | .SessionExists _ => true
  | _ => false

def NewNoSuchUser (message : String) : Err := .NoSuchUser message

def NewNoSuchUserID (id : UserID) : Err :=
  NewNoSuchUser ("user with id " ++ toString id ++ " does not exist")

def NewUserExists (message : String) : Err := .UserExists message

def NewAmbiguousCredentials (message : String) : Err := .AmbiguousCredentials message

def NewNotSupported (initial : Err) : Err := .NotSupported initial

def NewSessionExists (message : String) : Err := .SessionExists message

def NewSessionExistsKey (key : String) : Err :=
  NewSessionExists ("session with key " ++ key ++ " already exists")

def NewNoSuchSession (message : String) : Err := .NoSuchSession message

def NewNoSuchSessionKey (key : String) : Err :=
  NewNoSuchSession ("session with key " ++ key ++ " does not exist")

def NewRollbackErr (initialErr rollbackErr : Err) : Err :=
  .RollbackErr initialErr rollbackErr

def NewRetryInsertErr (errs : List Err) : Err := .RetryInsertErr errs

/-- A Go `interface{}` value as passed to `Exec`/`Scan`: the dynamic types
that actually flow through the engine. `converted` is the opaque result of
a bridge's `ConvertTime` when the bridge does not keep it a `time.Time`. -/
inductive Value where
  | int (i : Int)
  | str (s : String)
  | bool (b : Bool)
  | time (t : Int)
  | converted (t : Int)

/-- `SQLBridge`: the per-dialect adapter.  `TimeScanType` and
`ConvertTimeScanType` are not needed by the claims and are omitted. -/
structure SQLBridge where
  ConvertTime : Int → Value
  IsDuplicateInsert : Err → Bool
  IsDuplicateUpdate : Err → Bool

/-- `UserModel` from `user.go`. -/
structure UserModel where
  ID : UserID
  FirstName : String
  LastName : String
  Username : String
  EMail : String
  Password : String
  IsActive : Bool
  IsSuperUser : Bool
  IsStaff : Bool
  DateJoined : Int
  LastLogin : Int

/-- `UserModel.Copy`: a field-by-field copy (identity on the value model). -/
def UserModel.Copy (u : UserModel) : UserModel :=
  { ID := u.ID, FirstName := u.FirstName, LastName := u.LastName,
    Username := u.Username, EMail := u.EMail, Password := u.Password,
    IsActive := u.IsActive, IsSuperUser := u.IsSuperUser, IsStaff := u.IsStaff,
    DateJoined := u.DateJoined, LastLogin := u.LastLogin }

/-- `UserModel.GetFieldByName`: `switch strings.ToLower(name)` over the
eleven field names; an unknown name yields the `fmt.Errorf` error. -/
def UserModel.GetFieldByName (u : UserModel) (name : String) : Except Err Value :=
  match goToLower name with
  | "id" => .ok (.int u.ID)
  | "firstname" => .ok (.str u.FirstName)
  | "lastname" => .ok (.str u.LastName)
  | "username" => .ok (.str u.Username)
  | "email" => .ok (.str u.EMail)
  | "password" => .ok (.str u.Password)
  | "isactive" => .ok (.bool u.IsActive)
  | "issuperuser" => .ok (.bool u.IsSuperUser)
  | "isstaff" => .ok (.bool u.IsStaff)
  | "datejoined" => .ok (.time u.DateJoined)
  | "lastlogin" => .ok (.time u.LastLogin)
  | _ => .error (.Backend ("invalid field name \"" ++ name ++
      "\": Must be a valid field name of the user model"))

/-! ## Go maps as association lists

A Go `map[K]V` is embedded as a `List (K × V)` whose keys are looked up
front to back; `mapInsert` (assignment `m[k] = v`) removes any existing
binding and puts the new one in front, `mapErase` (`delete(m, k)`) removes
the binding. -/

def mapLookup {α β : Type} [DecidableEq α] : List (α × β) → α → Option β
  | [], _ => none
  | (k, v) :: rest, key => if k = key then some v else mapLookup rest key

def mapErase {α β : Type} [DecidableEq α] (m : List (α × β)) (key : α) : List (α × β) :=
  m.filter (fun p => decide (p.1 ≠ key))

def mapInsert {α β : Type} [DecidableEq α] (m : List (α × β)) (key : α) (v : β) :
    List (α × β) :=
  (key, v) :: mapErase m key

theorem mapLookup_mapInsert_self {α β : Type} [DecidableEq α]
    (m : List (α × β)) (k : α) (v : β) : mapLookup (mapInsert m k v) k = some v := by
  simp [mapInsert, mapLookup]

/-! ## The in-memory reference storage (`memdummy.go`) -/

/-- `MemdummyUserStorage`: the in-memory reference implementation. -/
structure MemdummyUserStorage where
  idMapping : List (UserID × UserModel)
  nameMapping : List (String × UserModel)
  mailMapping : List (String × UserModel)
  nextID : UserID

/-- `NewMemdummyUserStorage`: empty maps, `nextID = 1`. -/
def NewMemdummyUserStorage : MemdummyUserStorage :=
  { idMapping := [], nameMapping := [], mailMapping := [], nextID := 1 }

/-- What `MemdummyUserStorage.InsertUser` produces: the new store, the
(mutated) model argument, the returned id and the returned error. -/
structure MemInsertOut where
  store : MemdummyUserStorage
  user : UserModel
  id : UserID
  err : Option Err

/-- `MemdummyUserStorage.InsertUser`.  `time.Now().UTC()` is passed in as
the instant `now`. -/
def MemdummyUserStorage.InsertUser (s : MemdummyUserStorage) (user : UserModel)
    (now : Int) : MemInsertOut :=
  if (mapLookup s.nameMapping user.Username).isSome then
    ⟨s, user, InvalidUserID,
      some (NewUserExists ("user with name " ++ user.Username ++ " already exists"))⟩
  else if (mapLookup s.mailMapping user.EMail).isSome then
    ⟨s, user, InvalidUserID,
      some (NewUserExists ("user with email " ++ user.EMail ++ " already exists"))⟩
  else
    let nextID := s.nextID
    let u' := { user with ID := nextID, DateJoined := now }
    ⟨{ idMapping := mapInsert s.idMapping nextID u'.Copy,
       nameMapping := mapInsert s.nameMapping u'.Username u'.Copy,
       mailMapping := mapInsert s.mailMapping u'.EMail u'.Copy,
       nextID := nextID + 1 }, u', nextID, none⟩

/-- `MemdummyUserStorage.GetUser`. -/
def MemdummyUserStorage.GetUser (s : MemdummyUserStorage) (id : UserID) :
    Except Err UserModel :=
  match mapLookup s.idMapping id with
  | none => .error (NewNoSuchUser ("user with id " ++ toString id ++ " does not exist"))
  | some user => .ok user

/-- `MemdummyUserStorage.UpdateUser`: `fields` is ignored; an absent id
yields a `NoSuchUser` error; a username or email belonging to a different
id yields `AmbiguousCredentials`; otherwise all three maps are updated. -/
def MemdummyUserStorage.UpdateUser (s : MemdummyUserStorage) (id : UserID)
    (newCredentials : UserModel) (_fields : List String) :
    MemdummyUserStorage × Option Err :=
  match mapLookup s.idMapping id with
  | none =>
      (s, some (NewNoSuchUser ("user with id " ++ toString id ++ " does not exist")))
  | some existing =>
    if (match mapLookup s.nameMapping newCredentials.Username with
        | some fromName => decide (fromName.ID ≠ existing.ID)
        | none => false) then
      (s, some (NewAmbiguousCredentials
        ("username " ++ newCredentials.Username ++ " is already in use")))
    else if (match mapLookup s.mailMapping newCredentials.EMail with
        | some fromMail => decide (fromMail.ID ≠ existing.ID)
        | none => false) then
      (s, some (NewAmbiguousCredentials
        ("user with email " ++ newCredentials.EMail ++ " already exists")))
    else
      ({ s with
          idMapping := mapInsert s.idMapping id newCredentials.Copy,
          nameMapping := mapInsert s.nameMapping newCredentials.Username newCredentials.Copy,
          mailMapping := mapInsert s.mailMapping newCredentials.EMail newCredentials.Copy },
        none)

/-- `MemdummyUserStorage.DeleteUser`: an absent id is not an error. -/
def MemdummyUserStorage.DeleteUser (s : MemdummyUserStorage) (id : UserID) :
    MemdummyUserStorage × Option Err :=
  match mapLookup s.idMapping id with
  | none => (s, none)
  | some existing =>
      ({ s with
          nameMapping := mapErase s.nameMapping existing.Username,
          mailMapping := mapErase s.mailMapping existing.EMail,
          idMapping := mapErase s.idMapping id }, none)

/-! ## Sessions (`session.go`, `memdummy.go`) -/

/-- `SessionEntry` from `session.go`. -/
structure SessionEntry where
  Key : String
  User : UserID
  ExpireDate : Int

/-- `SessionEntry.Copy`. -/
def SessionEntry.Copy (s : SessionEntry) : SessionEntry :=
  { Key := s.Key, User := s.User, ExpireDate := s.ExpireDate }

/-- `SessionEntry.IsValid`: `referenceDate.Before(s.ExpireDate)`. -/
def SessionEntry.IsValid (s : SessionEntry) (referenceDate : Int) : Bool :=
  referenceDate < s.ExpireDate

/-- `MemdummySessionStorage`. -/
structure MemdummySessionStorage where
  keyMapping : List (String × SessionEntry)

def NewMemdummySessionStorage : MemdummySessionStorage := { keyMapping := [] }

/-- `MemdummySessionStorage.InsertSession`. -/
def MemdummySessionStorage.InsertSession (s : MemdummySessionStorage)
    (session : SessionEntry) : MemdummySessionStorage × Option Err :=
  if (mapLookup s.keyMapping session.Key).isSome then
    (s, some (NewSessionExistsKey session.Key))
  else
    ({ keyMapping := mapInsert s.keyMapping session.Key session.Copy }, none)

/-- `MemdummySessionStorage.GetSession`. -/
def MemdummySessionStorage.GetSession (s : MemdummySessionStorage) (key : String) :
    Except Err SessionEntry :=
  match mapLookup s.keyMapping key with
  | some entry => .ok entry
  | none => .error (NewNoSuchSessionKey key)

/-- The loop of `MemdummySessionStorage.CleanUp`: delete every entry that is
not valid at the reference date, counting deletions. -/
def cleanUpLoop : List (String × SessionEntry) → Int → List (String × SessionEntry) × Int
  | [], _ => ([], 0)
  | (key, session) :: rest, referenceDate =>
    let (rest', delCount) := cleanUpLoop rest referenceDate
    if session.IsValid referenceDate then ((key, session) :: rest', delCount)
    else (rest', delCount + 1)

/-- `MemdummySessionStorage.CleanUp`: returns the cleaned store and the
number of deleted entries (an `int64` in Go). -/
def MemdummySessionStorage.CleanUp (s : MemdummySessionStorage) (referenceDate : Int) :
    MemdummySessionStorage × Int :=
  let (kept, delCount) := cleanUpLoop s.keyMapping referenceDate
  ({ keyMapping := kept }, delCount)

/-- `MemdummySessionStorage.DeleteForUser`. -/
def MemdummySessionStorage.DeleteForUser (s : MemdummySessionStorage) (user : UserID) :
    MemdummySessionStorage × Int :=
  let kept := s.keyMapping.filter (fun p => decide (p.2.User ≠ user))
  ({ keyMapping := kept }, (s.keyMapping.length : Int) - kept.length)

/-! ## Session key generation (`session.go`)

`GenSessionKey` reads `SessionKeyBytes` bytes from `crypto/rand` and
encodes them with `base64.RawURLEncoding` (unpadded, URL-safe alphabet).
The random source is abstracted into a stream `Nat → Nat` of byte values
(taken mod 256); a failing `io.ReadFull` is the `.error` case of the
`readResult` argument. -/

def SessionKeyBytes : Nat := 29

/-- The URL-safe base64 alphabet (RFC 4648 §5), as used by Go's
`base64.URLEncoding`/`RawURLEncoding`. -/
def base64UrlAlphabet : String :=
  "ABCDEFGHIJKLMNOPQRSTUVWXYZabcdefghijklmnopqrstuvwxyz0123456789-_"

/-- Big-endian 6-bit groups of a byte sequence, as base64 encoding forms
them: full 3-byte chunks give four sextets, a 1-byte tail gives two and a
2-byte tail gives three (unpadded encoding keeps exactly these). -/
def base64Sextets : List Nat → List Nat
  | [] => []
  | [b1] => [b1 / 4, b1 % 4 * 16]
  | [b1, b2] => [b1 / 4, b1 % 4 * 16 + b2 / 16, b2 % 16 * 4]
  | b1 :: b2 :: b3 :: rest =>
      b1 / 4 :: (b1 % 4 * 16 + b2 / 16) :: (b2 % 16 * 4 + b3 / 64) :: b3 % 64 ::
        base64Sextets rest

/-- `base64.RawURLEncoding.EncodeToString`. -/
def rawURLEncode (bytes : List Nat) : String :=
  ⟨(base64Sextets bytes).map (fun i => base64UrlAlphabet.toList.getD i 'A')⟩

/-- `GenSessionKey`: on a successful read of the random bytes, the unpadded
URL-safe base64 encoding of `SessionKeyBytes` bytes drawn from the stream;
a read failure is returned as is. -/
def GenSessionKey (readResult : Except Err (Nat → Nat)) : Except Err String :=
  match readResult with
  | .error e => .error e
  | .ok rand => .ok (rawURLEncode ((List.range SessionKeyBytes).map (fun i => rand i % 256)))

/-! ## The retry helper (`RetrySessionInsert`, user.go declarations file)

The `SessionStorage` is abstracted into a state type `σ` with a
state-passing insert function; `GenSessionKey`'s successive outcomes are a
stream `Nat → Except Err String` indexed by the call number.  The output
records, besides the final state and returned error, how many insert
attempts and how many key generations the call performed. -/

structure RetryOut (σ : Type) where
  state : σ
  result : Option Err
  inserts : Nat
  keyGens : Nat

/-- The `for i := 0; i < numTries; i++` loop of `RetrySessionInsert`, with
the remaining iteration count as fuel, the accumulated collision errors
`errs`, and `k` the index of the next key-generation outcome. -/
def retryLoop {σ : Type} (ins : σ → SessionEntry → σ × Option Err)
    (keys : Nat → Except Err String) :
    Nat → σ → SessionEntry → List Err → Nat → RetryOut σ
  | 0, s, _, errs, _ => ⟨s, some (NewRetryInsertErr errs), 0, 0⟩
  | n + 1, s, session, errs, k =>
    match ins s session with
    | (s', none) => ⟨s', none, 1, 0⟩
    | (s', some insertErr) =>
      if insertErr.isSessionExists then
        match keys k with
        | .error keyErr => ⟨s', some keyErr, 1, 1⟩
        | .ok newKey =>
          let r := retryLoop ins keys n s' { session with Key := newKey }
            (errs ++ [insertErr]) (k + 1)
          ⟨r.state, r.result, r.inserts + 1, r.keyGens + 1⟩
      else
        ⟨s', some insertErr, 1, 0⟩

/-- `RetrySessionInsert`: `numTries` is a Go `int`; a non-positive count
runs the loop zero times. -/
def RetrySessionInsert {σ : Type} (ins : σ → SessionEntry → σ × Option Err)
    (keys : Nat → Except Err String) (s : σ) (session : SessionEntry)
    (numTries : Int) : RetryOut σ :=
  retryLoop ins keys numTries.toNat s session [] 0

/-! ## The generic SQL user storage (`sql.go`)

`database/sql` is abstracted into outcome functions.  `DB.Exec` is a
function from the statement text and its arguments to an `ExecOutcome`; a
transaction (for `InitUsers`) is a begin outcome, a per-statement exec
outcome, and rollback/commit outcomes.  Every engine operation also
returns the list of `Exec` calls it made, so that "no backend call" is a
statement about the model. -/

/-- The outcome of `DB.Exec`: either the call fails, or it yields a
`sql.Result` whose `LastInsertId()` and `RowsAffected()` methods each
either yield a value or fail (drivers need not support them). -/
inductive ExecOutcome where
  | fail (e : Err)
  | ok (lastInsertId : Except Err Int) (rowsAffected : Except Err Int)

/-- One performed `Exec` call: statement text and arguments. -/
structure ExecCall where
  stmt : String
  args : List Value

/-- The backing database, as outcome functions. -/
structure SQLUserDB where
  beginErr : Option Err
  txExec : String → Option Err
  rollbackErr : Option Err
  commitErr : Option Err
  Exec : String → List Value → ExecOutcome

/-- The `UserSQL` query provider: resolved statement text per operation and
the partial-update capability flag. -/
structure UserSQL where
  InitUsers : List String
  GetUser : String
  GetUserByName : String
  GetUserByEmail : String
  InsertUser : String
  UpdateUser : List String → String
  SupportsUserFields : Bool
  DeleteUser : String

/-- `SQLUserStorage`. -/
structure SQLUserStorage where
  UserDB : SQLUserDB
  UserQueries : UserSQL
  UserBridge : SQLBridge

/-- A transaction event of `InitUsers`, in order. -/
inductive TxEvent where
  | exec (stmt : String)
  | rollback
  | commit
deriving DecidableEq

/-- The statement loop of `InitUsers`: skip empty statements, stop at the
first failing one, collect the `tx.Exec` events. -/
def runInitLoop (txExec : String → Option Err) : List String → Option Err × List TxEvent
  | [] => (none, [])
  | stmt :: rest =>
    if stmt = "" then runInitLoop txExec rest
    else
      match txExec stmt with
      | some e => (some e, [.exec stmt])
      | none =>
        let (r, evs) := runInitLoop txExec rest
        (r, .exec stmt :: evs)

/-- `SQLUserStorage.InitUsers`: all init statements in one transaction;
on a statement failure roll back (a failing rollback yields a compound
`RollbackErr`), otherwise commit (a failing commit is wrapped by
`fmt.Errorf`). -/
def SQLUserStorage.InitUsers (s : SQLUserStorage) : Option Err × List TxEvent :=
  match s.UserDB.beginErr with
  | some e => (some e, [])
  | none =>
    let (execErr, evs) := runInitLoop s.UserDB.txExec s.UserQueries.InitUsers
    match execErr with
    | some e =>
      match s.UserDB.rollbackErr with
      | some rbErr => (some (NewRollbackErr e rbErr), evs ++ [.rollback])
      | none => (some e, evs ++ [.rollback])
    | none =>
      match s.UserDB.commitErr with
      | some commitErr =>
          (some (.Backend ("commit in database init failed: " ++ commitErr.Error)),
            evs ++ [.commit])
      | none => (none, evs ++ [.commit])

/-- The argument list `InsertUser` passes to `Exec`: the ten non-ID fields
in fixed order, the two timestamps through the bridge. -/
def insertUserArgs (b : SQLBridge) (user : UserModel) (dateJoined lastLogin : Int) :
    List Value :=
  [.str user.Username, .str user.Password, .str user.EMail, .str user.FirstName,
   .str user.LastName, .bool user.IsSuperUser, .bool user.IsStaff,
   .bool user.IsActive, b.ConvertTime dateJoined, b.ConvertTime lastLogin]

/-- What `SQLUserStorage.InsertUser` produces: the (mutated) model, the
returned id and the returned error. -/
structure SqlInsertOut where
  user : UserModel
  id : UserID
  err : Option Err

/-- `SQLUserStorage.InsertUser`: discard the caller's ID, stamp
`DateJoined = now` and `LastLogin = 0` (the zero instant), insert the ten
non-ID fields; a bridge-classified duplicate becomes `UserExists`, a
missing `LastInsertId` becomes `NotSupported` with the id left at the
sentinel, and on success the model's ID and the returned id are the
backend-generated id. -/
def SQLUserStorage.InsertUser (s : SQLUserStorage) (user : UserModel) (now : Int) :
    SqlInsertOut :=
  let u1 := { user with ID := InvalidUserID, DateJoined := now, LastLogin := 0 }
  match s.UserDB.Exec s.UserQueries.InsertUser (insertUserArgs s.UserBridge u1 now 0) with
  | .fail e =>
    if s.UserBridge.IsDuplicateInsert e then
      ⟨{ u1 with ID := InvalidUserID }, InvalidUserID,
        some (NewUserExists ("unique constraint failed: " ++ e.Error))⟩
    else
      ⟨{ u1 with ID := InvalidUserID }, InvalidUserID, some e⟩
  | .ok lastInsertId _ =>
    match lastInsertId with
    | .error idErr => ⟨u1, InvalidUserID, some (NewNotSupported idErr)⟩
    | .ok lastID => ⟨{ u1 with ID := lastID }, lastID, none⟩

/-- The per-field loop of `prepareUpdateArgs` (the `len(fields) > 0`
branch): resolve each name on the model, convert `DateJoined`/`LastLogin`
through the bridge, abort at the first failure. -/
def fieldUpdateArgs (b : SQLBridge) (u : UserModel) : List String → Except Err (List Value)
  | [] => .ok []
  | name :: rest =>
    match u.GetFieldByName name with
    | .error argErr => .error argErr
    | .ok arg =>
      if goToLower name = "datejoined" || goToLower name = "lastlogin" then
        match arg with
        | .time t =>
          match fieldUpdateArgs b u rest with
          | .error e => .error e
          | .ok args => .ok (b.ConvertTime t :: args)
        | _ => .error (.Backend "DateJoined / LastLogin must be time.Time")
      else
        match fieldUpdateArgs b u rest with
        | .error e => .error e
        | .ok args => .ok (arg :: args)

/-- `SQLUserStorage.prepareUpdateArgs`: with no fields, all ten non-ID
fields in fixed order (timestamps through the bridge); with fields, the
resolved field values in the given order; in both cases the target id is
the final element. -/
def SQLUserStorage.prepareUpdateArgs (s : SQLUserStorage) (id : UserID) (u : UserModel)
    (fields : List String) : Except Err (List Value) :=
  if fields = [] then
    .ok [.str u.Username, .str u.Password, .str u.EMail, .str u.FirstName,
         .str u.LastName, .bool u.IsSuperUser, .bool u.IsStaff, .bool u.IsActive,
         s.UserBridge.ConvertTime u.DateJoined, s.UserBridge.ConvertTime u.LastLogin,
         .int id]
  else
    match fieldUpdateArgs s.UserBridge u fields with
    | .error e => .error e
    | .ok args => .ok (args ++ [.int id])

/-- `SQLUserStorage.UpdateUser`: choose statement and arguments according
to `SupportsUserFields`; an argument-preparation failure aborts before any
`Exec`; a bridge-classified duplicate becomes `AmbiguousCredentials`; the
affected-row count is ignored. -/
def SQLUserStorage.UpdateUser (s : SQLUserStorage) (id : UserID)
    (newCredentials : UserModel) (fields : List String) : Option Err × List ExecCall :=
  let stmt := if s.UserQueries.SupportsUserFields then s.UserQueries.UpdateUser fields
    else s.UserQueries.UpdateUser []
  let argsE := if s.UserQueries.SupportsUserFields then
      s.prepareUpdateArgs id newCredentials fields
    else s.prepareUpdateArgs id newCredentials []
  match argsE with
  | .error argsErr =>
      (some (.Backend ("can't prepare user update arguments: " ++ argsErr.Error)), [])
  | .ok args =>
    match s.UserDB.Exec stmt args with
    | .fail e =>
      if s.UserBridge.IsDuplicateUpdate e then
        (some (NewAmbiguousCredentials ("unique constraint failed: " ++ e.Error)),
          [⟨stmt, args⟩])
      else (some e, [⟨stmt, args⟩])
    | .ok _ _ => (none, [⟨stmt, args⟩])

/-- `SQLUserStorage.DeleteUser`: a single `Exec` whose error (if any) is
passed through; the affected-row count is ignored. -/
def SQLUserStorage.DeleteUser (s : SQLUserStorage) (id : UserID) :
    Option Err × List ExecCall :=
  match s.UserDB.Exec s.UserQueries.DeleteUser [.int id] with
  | .fail e => (some e, [⟨s.UserQueries.DeleteUser, [.int id]⟩])
  | .ok _ _ => (none, [⟨s.UserQueries.DeleteUser, [.int id]⟩])

/-! ## The template replacer (`SQLTemplateReplacer`, sql.go)

`computeReplacer` flattens the `entries` map into a flat
`[key, value, ...]` argument list for `strings.NewReplacer` by ranging
over the map — an order Go does not specify.  The replacer is therefore
modelled on an explicit enumeration `entries : List (String × String)` of
the map.  `strings.Replacer.Replace` performs replacements in target-string
order without overlapping matches, breaking ties at one position by
argument order, and never re-scans replaced text; keys here are ASCII, so
Go's byte positions coincide with character positions. -/

/-- `isPre p s`: the character list `p` is a prefix of `s`. -/
def isPre : List Char → List Char → Bool
  | [], _ => true
  | _ :: _, [] => false
  | a :: as, b :: bs => a = b && isPre as bs

/-- The pair replacing at the head of `s`: the first pair (in argument
order) whose key is a nonempty prefix of `s`. -/
def lookupMatch (pairs : List (String × String)) (s : List Char) :
    Option (String × String) :=
  pairs.find? (fun p => !p.1.toList.isEmpty && isPre p.1.toList s)

/-- One left-to-right pass of `strings.Replacer.Replace`: at each position,
if some key matches, emit its value verbatim and skip the key; otherwise
emit the character.  The fuel (any bound on the number of positions, in
particular the input length) makes the recursion structural. -/
def goReplaceFuel (pairs : List (String × String)) : Nat → List Char → List Char
  | 0, s => s
  | _ + 1, [] => []
  | fuel + 1, c :: rest =>
    match lookupMatch pairs (c :: rest) with
    | some (k, v) => v.toList ++ goReplaceFuel pairs fuel (List.drop (k.toList.length - 1) rest)
    | none => c :: goReplaceFuel pairs fuel rest

/-- `strings.Replacer.Replace` for the argument pairs `pairs`. -/
def goReplace (pairs : List (String × String)) (s : String) : String :=
  ⟨goReplaceFuel pairs s.toList.length s.toList⟩

/-- `SQLTemplateReplacer`, with `entries` one enumeration of the Go map. -/
structure SQLTemplateReplacer where
  entries : List (String × String)

/-- `SQLTemplateReplacer.Apply`: `t.replacer.Replace(templateStr)`, where
the compiled replacer's argument order is the enumeration order of
`entries`. -/
def SQLTemplateReplacer.Apply (t : SQLTemplateReplacer) (templateStr : String) : String :=
  goReplace t.entries templateStr

/-- A `$NAME$` placeholder token over the name `n`, as a character list. -/
def tokL (n : String) : List Char := '$' :: (n.toList ++ ['$'])

/-- A well-formed replacer configuration: keys are nonempty, pairwise
distinct, and no key is a prefix of a different key.  Distinct `$NAME$`
placeholders always satisfy this. -/
def GoodPairs (pairs : List (String × String)) : Prop :=
  (∀ p ∈ pairs, p.1.toList ≠ []) ∧
  (∀ p ∈ pairs, ∀ q ∈ pairs, p.1 = q.1 → p = q) ∧
  (∀ p ∈ pairs, ∀ q ∈ pairs, p.1 ≠ q.1 → isPre p.1.toList q.1.toList = false)

/-- A segment of a template string: a placeholder-free literal, the first
placeholder token, or the second placeholder token. -/
inductive Seg where
  | lit (s : String)
  | tokA
  | tokB

/-- The template string built from segments, over placeholder names
`n1` and `n2`. -/
def inputOfL (n1 n2 : String) : List Seg → List Char
  | [] => []
  | .lit s :: rest => s.toList ++ inputOfL n1 n2 rest
  | .tokA :: rest => tokL n1 ++ inputOfL n1 n2 rest
  | .tokB :: rest => tokL n2 ++ inputOfL n1 n2 rest

/-! ## Fixtures for witnesses and counterexamples -/

/-- A concrete user model (the conformance suite's first test user). -/
def sampleUser : UserModel :=
  { ID := 0, FirstName := "Foo", LastName := "", Username := "user1",
    EMail := "user1@foo.com", Password := "hash", IsActive := true,
    IsSuperUser := false, IsStaff := false, DateJoined := 0, LastLogin := 0 }

/-- A concrete bridge: keeps instants as `time.Time` and classifies no
error as a duplicate. -/
def sampleBridge : SQLBridge :=
  { ConvertTime := fun t => .time t,
    IsDuplicateInsert := fun _ => false,
    IsDuplicateUpdate := fun _ => false }

/-- A concrete query provider supporting field-scoped updates. -/
def sampleQueries : UserSQL :=
  { InitUsers := [], GetUser := "G", GetUserByName := "GN", GetUserByEmail := "GE",
    InsertUser := "I", UpdateUser := fun _ => "U", SupportsUserFields := true,
    DeleteUser := "D" }

/-- A concrete backing database on which every call succeeds. -/
def sampleDB : SQLUserDB :=
  { beginErr := none, txExec := fun _ => none, rollbackErr := none,
    commitErr := none, Exec := fun _ _ => .ok (.ok 1) (.ok 1) }

def sampleStorage : SQLUserStorage :=
  { UserDB := sampleDB, UserQueries := sampleQueries, UserBridge := sampleBridge }

/-! ## C1 — idempotent-mutation policy -/

/-- C1: evaluated at the failing input.  On an empty in-memory reference
store, deleting the absent id 1 succeeds (`nil` error) as the
idempotent-mutation policy demands, but updating the absent id 1 does NOT
succeed: `MemdummyUserStorage.UpdateUser` returns a `NoSuchUser` error,
contradicting the claimed policy (and the `UserStorage` interface
documentation, which requires "Updating a non-existing user should not
lead to any error (returns nil)"). -/
theorem memdummy_update_missing_id_is_error :
    (NewMemdummyUserStorage.UpdateUser 1 sampleUser []).2 =
      some (Err.NoSuchUser "user with id 1 does not exist") ∧
    (NewMemdummyUserStorage.DeleteUser 1).2 = none :=
  ⟨rfl, rfl⟩

/-! ## C3 — memdummy insert/lookup round trip -/

/-- C3: for every store, model and insertion instant, if `InsertUser`
succeeds then `GetUser` at the returned id yields a model agreeing with
the inserted one on FirstName, LastName, Username, EMail, Password,
IsActive, IsSuperUser and IsStaff. -/
theorem memdummy_insert_roundtrip (s : MemdummyUserStorage) (u : UserModel) (now : Int)
    (h : (s.InsertUser u now).err = none) :
    ∃ m, (s.InsertUser u now).store.GetUser ((s.InsertUser u now).id) = .ok m ∧
      m.FirstName = u.FirstName ∧ m.LastName = u.LastName ∧ m.Username = u.Username ∧
      m.EMail = u.EMail ∧ m.Password = u.Password ∧ m.IsActive = u.IsActive ∧
      m.IsSuperUser = u.IsSuperUser ∧ m.IsStaff = u.IsStaff := by
  by_cases h1 : (mapLookup s.nameMapping u.Username).isSome
  · simp [MemdummyUserStorage.InsertUser, h1] at h
  · by_cases h2 : (mapLookup s.mailMapping u.EMail).isSome
    · simp [MemdummyUserStorage.InsertUser, h1, h2] at h
    · refine ⟨({ u with ID := s.nextID, DateJoined := now } : UserModel).Copy,
        ?_, rfl, rfl, rfl, rfl, rfl, rfl, rfl, rfl⟩
      simp [MemdummyUserStorage.InsertUser, h1, h2, MemdummyUserStorage.GetUser,
        mapLookup_mapInsert_self]

/-- C3 witness: inserting the sample user into the empty store and looking
its id up. -/
theorem memdummy_insert_roundtrip_witness :
    ∃ m, (NewMemdummyUserStorage.InsertUser sampleUser 7).store.GetUser
        ((NewMemdummyUserStorage.InsertUser sampleUser 7).id) = .ok m ∧
      m.FirstName = sampleUser.FirstName ∧ m.LastName = sampleUser.LastName ∧
      m.Username = sampleUser.Username ∧ m.EMail = sampleUser.EMail ∧
      m.Password = sampleUser.Password ∧ m.IsActive = sampleUser.IsActive ∧
      m.IsSuperUser = sampleUser.IsSuperUser ∧ m.IsStaff = sampleUser.IsStaff :=
  memdummy_insert_roundtrip NewMemdummyUserStorage sampleUser 7 rfl

/-! ## C5 — `InsertUser` error classification and id reporting -/

/-- C5: by cases on the backend's outcome for the insert statement.  If the
statement fails, the returned id and the model's ID are the sentinel, and
the error is `UserExists` when the bridge classifies the failure as a
duplicate insert, the raw error otherwise; if the statement succeeds but
`LastInsertId` fails, the id is the sentinel, the model's ID is the
sentinel and the error is `NotSupported`; if both succeed, the model's ID
and the returned id are the backend-generated id and the error is `nil`. -/
theorem sql_insertUser_spec (s : SQLUserStorage) (user : UserModel) (now : Int) :
    match s.UserDB.Exec s.UserQueries.InsertUser
        (insertUserArgs s.UserBridge
          { user with ID := InvalidUserID, DateJoined := now, LastLogin := 0 } now 0) with
    | .fail e =>
        (s.InsertUser user now).id = InvalidUserID ∧
        (s.InsertUser user now).user.ID = InvalidUserID ∧
        (s.InsertUser user now).err =
          some (if s.UserBridge.IsDuplicateInsert e then
                  NewUserExists ("unique constraint failed: " ++ e.Error)
                else e)
    | .ok lastInsertId _ =>
      match lastInsertId with
      | .error idErr =>
          (s.InsertUser user now).id = InvalidUserID ∧
          (s.InsertUser user now).user.ID = InvalidUserID ∧
          (s.InsertUser user now).err = some (NewNotSupported idErr)
      | .ok lastID =>
          (s.InsertUser user now).id = lastID ∧
          (s.InsertUser user now).user.ID = lastID ∧
          (s.InsertUser user now).err = none := by
  cases hx : s.UserDB.Exec s.UserQueries.InsertUser
      (insertUserArgs s.UserBridge
        { user with ID := InvalidUserID, DateJoined := now, LastLogin := 0 } now 0) with
  | fail e =>
    by_cases hd : s.UserBridge.IsDuplicateInsert e
    · simp [SQLUserStorage.InsertUser, hx, hd, NewUserExists]
    · simp [SQLUserStorage.InsertUser, hx, hd]
  | ok lastInsertId rowsAffected =>
    cases lastInsertId with
    | error idErr => simp [SQLUserStorage.InsertUser, hx]
    | ok lastID => simp [SQLUserStorage.InsertUser, hx]

/-! ## C7 — session validity boundary and the cleanup sweep -/

theorem cleanUpLoop_spec (l : List (String × SessionEntry)) (ref : Int) :
    cleanUpLoop l ref =
      (l.filter (fun p => decide (ref < p.2.ExpireDate)),
       ((l.filter (fun p => decide (p.2.ExpireDate ≤ ref))).length : Int)) := by
  induction l with
  | nil => rfl
  | cons p rest ih =>
    by_cases hv : ref < p.2.ExpireDate
    · simp [cleanUpLoop, ih, SessionEntry.IsValid, hv, Int.not_le.mpr hv, List.filter]
    · simp [cleanUpLoop, ih, SessionEntry.IsValid, hv, Int.not_lt.mp hv, List.filter]

/-- C7: a session is valid at the instant `t` iff `t` is strictly before
its `ExpireDate`; the cleanup sweep at reference instant `referenceDate`
keeps exactly the sessions whose `ExpireDate` is strictly after it (i.e.
removes exactly those whose `ExpireDate` is not strictly after it) and
returns the number of sessions removed. -/
theorem session_validity_and_cleanup (s : MemdummySessionStorage)
    (referenceDate : Int) (entry : SessionEntry) (t : Int) :
    (entry.IsValid t = decide (t < entry.ExpireDate)) ∧
    ((s.CleanUp referenceDate).1.keyMapping =
      s.keyMapping.filter (fun p => decide (referenceDate < p.2.ExpireDate))) ∧
    ((s.CleanUp referenceDate).2 =
      ((s.keyMapping.filter (fun p => decide (p.2.ExpireDate ≤ referenceDate))).length : Int)) := by
  refine ⟨rfl, ?_, ?_⟩ <;>
    simp [MemdummySessionStorage.CleanUp, cleanUpLoop_spec]

/-! ## C10 — non-positive attempt counts -/

/-- C10: with a non-positive `numTries`, `RetrySessionInsert` performs no
insertion attempt and no key generation and returns a (non-nil)
`RetryInsertErr` carrying the empty error list, whatever the storage and
the entry. -/
theorem retrySessionInsert_nonpositive {σ : Type}
    (ins : σ → SessionEntry → σ × Option Err) (keys : Nat → Except Err String)
    (s : σ) (session : SessionEntry) (numTries : Int) (h : numTries ≤ 0) :
    RetrySessionInsert ins keys s session numTries =
      ⟨s, some (NewRetryInsertErr []), 0, 0⟩ := by
  unfold RetrySessionInsert
  rw [Int.toNat_of_nonpos h]
  rfl

/-- C10 witness: a concrete run with `numTries = -3` on a unit-state store
that would accept the insert if it were ever attempted. -/
theorem retrySessionInsert_nonpositive_witness :
    RetrySessionInsert (fun (s : Unit) _ => (s, none)) (fun _ => .ok "k") ()
        ⟨"key", 1, 5⟩ (-3) = ⟨(), some (NewRetryInsertErr []), 0, 0⟩ :=
  retrySessionInsert_nonpositive _ _ _ _ (-3) (by decide)

/-! ## C4 — transactional initialization -/

/-- The statement failure the loop stops at: the outcome of the first
non-empty statement that fails, in order. -/
def firstExecErr (txExec : String → Option Err) : List String → Option Err
  | [] => none
  | stmt :: rest =>
    if stmt = "" then firstExecErr txExec rest
    else
      match txExec stmt with
      | some e => some e
      | none => firstExecErr txExec rest

/-- The statements the loop executes: the non-empty statements in order,
up to and including the first failing one. -/
def execTrace (txExec : String → Option Err) : List String → List String
  | [] => []
  | stmt :: rest =>
    if stmt = "" then execTrace txExec rest
    else
      match txExec stmt with
      | some _ => [stmt]
      | none => stmt :: execTrace txExec rest

/-- The statements of a transaction event list, in order. -/
def execStmts : List TxEvent → List String
  | [] => []
  | .exec stmt :: rest => stmt :: execStmts rest
  | .rollback :: rest => execStmts rest
  | .commit :: rest => execStmts rest

theorem runInitLoop_eq (txExec : String → Option Err) (stmts : List String) :
    runInitLoop txExec stmts =
      (firstExecErr txExec stmts, (execTrace txExec stmts).map TxEvent.exec) := by
  induction stmts with
  | nil => rfl
  | cons stmt rest ih =>
    by_cases hs : stmt = ""
    · simp [runInitLoop, firstExecErr, execTrace, hs, ih]
    · cases ht : txExec stmt with
      | some e => simp [runInitLoop, firstExecErr, execTrace, hs, ht]
      | none => simp [runInitLoop, firstExecErr, execTrace, hs, ht, ih]

theorem execStmts_append (a b : List TxEvent) :
    execStmts (a ++ b) = execStmts a ++ execStmts b := by
  induction a with
  | nil => rfl
  | cons ev rest ih => cases ev <;> simp [execStmts, ih]

theorem execStmts_map_exec (l : List String) : execStmts (l.map TxEvent.exec) = l := by
  induction l with
  | nil => rfl
  | cons stmt rest ih => simp [execStmts, ih]

theorem execTrace_ne_empty (txExec : String → Option Err) (stmts : List String) :
    ∀ st ∈ execTrace txExec stmts, st ≠ "" := by
  induction stmts with
  | nil => simp [execTrace]
  | cons stmt rest ih =>
    by_cases hs : stmt = ""
    · simpa [execTrace, hs] using ih
    · cases ht : txExec stmt with
      | some e => simp [execTrace, hs, ht]
      | none =>
        intro st hst
        rcases (by simpa [execTrace, hs, ht] using hst : st = stmt ∨ st ∈ execTrace txExec rest) with
          h | h
        · simpa [h] using hs
        · exact ih st h

/-- C4: with a successful `Begin`, `InitUsers` executes exactly the
non-empty init statements in order up to and including the first failing
one; if no statement fails it commits (and does not roll back), returning
`nil` unless the commit itself fails; if a statement fails it rolls back
(and does not commit), returning the statement failure when the rollback
succeeds and a compound `RollbackErr` carrying both failures when the
rollback fails too. -/
theorem sql_initUsers_spec (s : SQLUserStorage) (hbegin : s.UserDB.beginErr = none) :
    execStmts s.InitUsers.2 = execTrace s.UserDB.txExec s.UserQueries.InitUsers ∧
    (∀ st ∈ execStmts s.InitUsers.2, st ≠ "") ∧
    (match firstExecErr s.UserDB.txExec s.UserQueries.InitUsers with
     | none =>
        TxEvent.commit ∈ s.InitUsers.2 ∧ TxEvent.rollback ∉ s.InitUsers.2 ∧
        s.InitUsers.1 = (match s.UserDB.commitErr with
          | none => none
          | some commitErr =>
              some (.Backend ("commit in database init failed: " ++ commitErr.Error)))
     | some e =>
        TxEvent.rollback ∈ s.InitUsers.2 ∧ TxEvent.commit ∉ s.InitUsers.2 ∧
        s.InitUsers.1 = (match s.UserDB.rollbackErr with
          | none => some e
          | some rbErr => some (NewRollbackErr e rbErr))) := by
  have hinit : s.InitUsers =
      (match firstExecErr s.UserDB.txExec s.UserQueries.InitUsers with
       | some e =>
         match s.UserDB.rollbackErr with
         | some rbErr => (some (NewRollbackErr e rbErr),
             (execTrace s.UserDB.txExec s.UserQueries.InitUsers).map TxEvent.exec
               ++ [.rollback])
         | none => (some e,
             (execTrace s.UserDB.txExec s.UserQueries.InitUsers).map TxEvent.exec
               ++ [.rollback])
       | none =>
         match s.UserDB.commitErr with
         | some commitErr =>
             (some (.Backend ("commit in database init failed: " ++ commitErr.Error)),
               (execTrace s.UserDB.txExec s.UserQueries.InitUsers).map TxEvent.exec
                 ++ [.commit])
         | none => (none,
             (execTrace s.UserDB.txExec s.UserQueries.InitUsers).map TxEvent.exec
               ++ [.commit])) := by
    unfold SQLUserStorage.InitUsers
    rw [hbegin, runInitLoop_eq]
  cases hf : firstExecErr s.UserDB.txExec s.UserQueries.InitUsers with
  | none =>
    cases hc : s.UserDB.commitErr with
    | none =>
      rw [hinit]
      simp [hf, hc, execStmts_append, execStmts_map_exec, execStmts]
      exact execTrace_ne_empty _ _
    | some commitErr =>
      rw [hinit]
      simp [hf, hc, execStmts_append, execStmts_map_exec, execStmts]
      exact execTrace_ne_empty _ _
  | some e =>
    cases hr : s.UserDB.rollbackErr with
    | none =>
      rw [hinit]
      simp [hf, hr, execStmts_append, execStmts_map_exec, execStmts]
      exact execTrace_ne_empty _ _
    | some rbErr =>
      rw [hinit]
      simp [hf, hr, execStmts_append, execStmts_map_exec, execStmts]
      exact execTrace_ne_empty _ _

/-- A backing database whose transaction fails on the statement `"bad"`
and whose rollback also fails. -/
def initFailDB : SQLUserDB :=
  { beginErr := none,
    txExec := fun st => if st = "bad" then some (.Backend "boom") else none,
    rollbackErr := some (.Backend "rollback refused"),
    commitErr := none, Exec := fun _ _ => .ok (.ok 1) (.ok 1) }

def initFailStorage : SQLUserStorage :=
  { UserDB := initFailDB,
    UserQueries := { sampleQueries with InitUsers := ["a", "", "bad", "c"] },
    UserBridge := sampleBridge }

/-- C4 witness: on `["a", "", "bad", "c"]` with `"bad"` failing and the
rollback failing too, the executed statements are `["a", "bad"]` and the
result is the compound `RollbackErr`. -/
theorem sql_initUsers_spec_witness :
    execStmts initFailStorage.InitUsers.2 =
        execTrace initFailStorage.UserDB.txExec initFailStorage.UserQueries.InitUsers ∧
    (∀ st ∈ execStmts initFailStorage.InitUsers.2, st ≠ "") ∧
    (match firstExecErr initFailStorage.UserDB.txExec
        initFailStorage.UserQueries.InitUsers with
     | none =>
        TxEvent.commit ∈ initFailStorage.InitUsers.2 ∧
        TxEvent.rollback ∉ initFailStorage.InitUsers.2 ∧
        initFailStorage.InitUsers.1 = (match initFailStorage.UserDB.commitErr with
          | none => none
          | some commitErr =>
              some (.Backend ("commit in database init failed: " ++ commitErr.Error)))
     | some e =>
        TxEvent.rollback ∈ initFailStorage.InitUsers.2 ∧
        TxEvent.commit ∉ initFailStorage.InitUsers.2 ∧
        initFailStorage.InitUsers.1 = (match initFailStorage.UserDB.rollbackErr with
          | none => some e
          | some rbErr => some (NewRollbackErr e rbErr))) :=
  sql_initUsers_spec initFailStorage rfl

/-! ## C2 — partial update argument preparation -/

/-- The lowercase names `GetFieldByName` resolves: the ten non-ID field
names and `id` itself. -/
def validLowerFieldNames : List String :=
  ["id", "firstname", "lastname", "username", "email", "password", "isactive",
   "issuperuser", "isstaff", "datejoined", "lastlogin"]

/-- The prepared argument for one resolvable field name: the model's
current value, with `DateJoined`/`LastLogin` converted through the
bridge. -/
def fieldArg (b : SQLBridge) (u : UserModel) (name : String) : Value :=
  match goToLower name with
  | "id" => .int u.ID
  | "firstname" => .str u.FirstName
  | "lastname" => .str u.LastName
  | "username" => .str u.Username
  | "email" => .str u.EMail
  | "password" => .str u.Password
  | "isactive" => .bool u.IsActive
  | "issuperuser" => .bool u.IsSuperUser
  | "isstaff" => .bool u.IsStaff
  | "datejoined" => b.ConvertTime u.DateJoined
  | "lastlogin" => b.ConvertTime u.LastLogin
  | _ => .str ""

theorem getFieldByName_invalid (u : UserModel) (name : String)
    (h : goToLower name ∉ validLowerFieldNames) :
    u.GetFieldByName name = .error (.Backend ("invalid field name \"" ++ name ++
      "\": Must be a valid field name of the user model")) := by
  unfold UserModel.GetFieldByName
  split
  all_goals first
    | rfl
    | (exact absurd (by simp [validLowerFieldNames, *]) h)

theorem fieldUpdateArgs_ok (b : SQLBridge) (u : UserModel) :
    ∀ fields : List String, (∀ n ∈ fields, goToLower n ∈ validLowerFieldNames) →
      fieldUpdateArgs b u fields = .ok (fields.map (fieldArg b u)) := by
  intro fields
  induction fields with
  | nil => intro _; rfl
  | cons name rest ih =>
    intro h
    have hname := h name (List.mem_cons_self _ _)
    have hrest : ∀ n ∈ rest, goToLower n ∈ validLowerFieldNames :=
      fun n hn => h n (List.mem_cons_of_mem _ hn)
    simp only [validLowerFieldNames, List.mem_cons, List.not_mem_nil, or_false] at hname
    rcases hname with h1 | h1 | h1 | h1 | h1 | h1 | h1 | h1 | h1 | h1 | h1 <;>
      simp [fieldUpdateArgs, UserModel.GetFieldByName, fieldArg, h1, ih hrest]

theorem fieldUpdateArgs_firstErr (b : SQLBridge) (u : UserModel) :
    ∀ fields : List String, (∃ n ∈ fields, goToLower n ∉ validLowerFieldNames) →
      ∃ e, fieldUpdateArgs b u fields = .error e := by
  intro fields
  induction fields with
  | nil => rintro ⟨n, hn, _⟩; exact absurd hn (List.not_mem_nil n)
  | cons name rest ih =>
    rintro ⟨n, hn, hinvalid⟩
    by_cases hv : goToLower name ∈ validLowerFieldNames
    · have hn' : n ∈ rest := by
        rcases List.mem_cons.mp hn with h | h
        · exact absurd (h ▸ hv) hinvalid
        · exact h
      obtain ⟨e, he⟩ := ih ⟨n, hn', hinvalid⟩
      simp only [validLowerFieldNames, List.mem_cons, List.not_mem_nil, or_false] at hv
      rcases hv with h1 | h1 | h1 | h1 | h1 | h1 | h1 | h1 | h1 | h1 | h1 <;>
        exact ⟨e, by simp [fieldUpdateArgs, UserModel.GetFieldByName, h1, he]⟩
    · exact ⟨.Backend ("invalid field name \"" ++ name ++
        "\": Must be a valid field name of the user model"),
        by simp [fieldUpdateArgs, getFieldByName_invalid u name hv]⟩

/-- C2 (amended): for a non-empty field list, (i) resolution is
case-insensitive — two names with the same lowercase form that name a
model field resolve to the same value; (ii) if every name lowercases to
one of the ELEVEN `UserModel` field names (the ten non-ID fields and
`ID` itself), preparation succeeds with the resolved values in field
order — `DateJoined`/`LastLogin` through the bridge's `ConvertTime` — and
the target id appended as the final parameter; (iii) if some name is not
one of the eleven, preparation fails and, when the provider supports
field-scoped updates, `UpdateUser` returns the wrapped preparation error
without any backend call. -/
theorem prepareUpdateArgs_spec (s : SQLUserStorage) (id : UserID) (u : UserModel)
    (fields : List String) (hne : fields ≠ []) :
    (∀ n n' : String, goToLower n ∈ validLowerFieldNames → goToLower n' = goToLower n →
        u.GetFieldByName n' = u.GetFieldByName n) ∧
    ((∀ n ∈ fields, goToLower n ∈ validLowerFieldNames) →
      s.prepareUpdateArgs id u fields =
        .ok (fields.map (fieldArg s.UserBridge u) ++ [.int id])) ∧
    ((∃ n ∈ fields, goToLower n ∉ validLowerFieldNames) →
      ∃ e, s.prepareUpdateArgs id u fields = .error e ∧
        (s.UserQueries.SupportsUserFields = true →
          s.UpdateUser id u fields =
            (some (.Backend ("can't prepare user update arguments: " ++ e.Error)), []))) := by
  refine ⟨?_, ?_, ?_⟩
  · intro n n' hmem heq
    simp only [validLowerFieldNames, List.mem_cons, List.not_mem_nil, or_false] at hmem
    rcases hmem with h1 | h1 | h1 | h1 | h1 | h1 | h1 | h1 | h1 | h1 | h1 <;>
      simp [UserModel.GetFieldByName, heq, h1]
  · intro hall
    simp [SQLUserStorage.prepareUpdateArgs, hne, fieldUpdateArgs_ok s.UserBridge u fields hall]
  · intro hsome
    obtain ⟨e, he⟩ := fieldUpdateArgs_firstErr s.UserBridge u fields hsome
    refine ⟨e, ?_, ?_⟩
    · simp [SQLUserStorage.prepareUpdateArgs, hne, he]
    · intro hsup
      simp [SQLUserStorage.UpdateUser, hsup, SQLUserStorage.prepareUpdateArgs, hne, he]

/-- C2 witness: a two-field partial update (`EMail`, mixed-case
`DateJoined`) on the sample model produces the resolved values — the
timestamp through the bridge — with the id 7 appended last. -/
theorem prepareUpdateArgs_spec_witness :
    sampleStorage.prepareUpdateArgs 7 sampleUser ["EMail", "DateJoined"] =
      .ok ((["EMail", "DateJoined"].map (fieldArg sampleStorage.UserBridge sampleUser))
        ++ [.int 7]) :=
  (prepareUpdateArgs_spec sampleStorage 7 sampleUser ["EMail", "DateJoined"]
    (by decide)).2.1 (by decide)

/-- C2 counterexample to the claim as stated: `"ID"` is not one of the ten
non-ID field names, yet preparing `["ID"]` does not fail — it resolves to
the model's ID — and `UpdateUser` reaches the backend (one `Exec` call is
made), succeeding. -/
theorem prepareUpdateArgs_spec_cex :
    sampleStorage.prepareUpdateArgs 5 sampleUser ["ID"] = .ok [.int 0, .int 5] ∧
    sampleStorage.UpdateUser 5 sampleUser ["ID"] =
      (none, [⟨"U", [.int 0, .int 5]⟩]) :=
  ⟨rfl, rfl⟩

/-! ## C6 — bounded retry on session-key collisions -/

theorem retryLoop_allCollide {σ : Type} (ins : σ → SessionEntry → σ × Option Err)
    (keys : Nat → Except Err String)
    (hins : ∀ st e, ∃ m, (ins st e).2 = some (.SessionExists m))
    (hkeys : ∀ k, ∃ nk, keys k = .ok nk) :
    ∀ (N : Nat) (s : σ) (session : SessionEntry) (errs : List Err) (k : Nat),
      ∃ st tail, retryLoop ins keys N s session errs k =
          ⟨st, some (NewRetryInsertErr (errs ++ tail)), N, N⟩ ∧
        tail.length = N ∧ ∀ e ∈ tail, e.isSessionExists = true := by
  intro N
  induction N with
  | zero =>
    intro s session errs k
    exact ⟨s, [], by simp [retryLoop], rfl, by simp⟩
  | succ n ih =>
    intro s session errs k
    obtain ⟨m, hm⟩ := hins s session
    rcases hp : ins s session with ⟨s', oe⟩
    rw [hp] at hm
    simp only at hm
    subst hm
    obtain ⟨nk, hnk⟩ := hkeys k
    obtain ⟨st, tail, heq, hlen, hall⟩ :=
      ih s' { session with Key := nk } (errs ++ [Err.SessionExists m]) (k + 1)
    refine ⟨st, Err.SessionExists m :: tail, ?_, by simp [hlen], ?_⟩
    · simp [retryLoop, hp, Err.isSessionExists, hnk, heq, NewRetryInsertErr]
    · intro e he
      rcases List.mem_cons.mp he with h | h
      · rw [h]; rfl
      · exact hall e h

/-- C6: for every storage (as a state-passing insert), key stream, state
and entry — (i) a first-attempt failure that is not `SessionExists` is
returned immediately after exactly one insert attempt and no key
generation, for every positive attempt count; (ii) if the first attempt
collides but generating a fresh key fails, the key-generation error is
returned after one attempt and one key generation, with no retry;
(iii) whenever an attempt collides and a fresh key is generated, the
collision is recorded, the entry's key is replaced and the loop retries
with one fewer remaining attempt; (iv) if every attempt collides and key
generation always succeeds, a run with attempt count `N` performs `N`
attempts and `N` key generations and returns a `RetryInsertErr`
enumerating the `N` recorded collision errors. -/
theorem retrySessionInsert_spec {σ : Type} (ins : σ → SessionEntry → σ × Option Err)
    (keys : Nat → Except Err String) (s : σ) (session : SessionEntry) :
    (∀ numTries : Int, 1 ≤ numTries → ∀ s' e, ins s session = (s', some e) →
      e.isSessionExists = false →
      RetrySessionInsert ins keys s session numTries = ⟨s', some e, 1, 0⟩) ∧
    (∀ numTries : Int, 1 ≤ numTries → ∀ s' e keyErr, ins s session = (s', some e) →
      e.isSessionExists = true → keys 0 = .error keyErr →
      RetrySessionInsert ins keys s session numTries = ⟨s', some keyErr, 1, 1⟩) ∧
    (∀ (n : Nat) (errs : List Err) (k : Nat) (s' : σ) (e : Err) (newKey : String),
      ins s session = (s', some e) → e.isSessionExists = true → keys k = .ok newKey →
      retryLoop ins keys (n + 1) s session errs k =
        ⟨(retryLoop ins keys n s' { session with Key := newKey } (errs ++ [e]) (k + 1)).state,
         (retryLoop ins keys n s' { session with Key := newKey } (errs ++ [e]) (k + 1)).result,
         (retryLoop ins keys n s' { session with Key := newKey } (errs ++ [e]) (k + 1)).inserts + 1,
         (retryLoop ins keys n s' { session with Key := newKey } (errs ++ [e]) (k + 1)).keyGens + 1⟩) ∧
    ((∀ st e, ∃ m, (ins st e).2 = some (.SessionExists m)) →
      (∀ k, ∃ nk, keys k = .ok nk) →
      ∀ N : Nat, ∃ st tail, RetrySessionInsert ins keys s session (N : Int) =
          ⟨st, some (NewRetryInsertErr tail), N, N⟩ ∧
        tail.length = N ∧ ∀ e ∈ tail, e.isSessionExists = true) := by
  refine ⟨?_, ?_, ?_, ?_⟩
  · intro numTries hn s' e hp hnot
    have ht : numTries.toNat = (numTries.toNat - 1) + 1 := by omega
    unfold RetrySessionInsert
    rw [ht]
    simp [retryLoop, hp, hnot]
  · intro numTries hn s' e keyErr hp hyes hkey
    have ht : numTries.toNat = (numTries.toNat - 1) + 1 := by omega
    unfold RetrySessionInsert
    rw [ht]
    simp [retryLoop, hp, hyes, hkey]
  · intro n errs k s' e newKey hp hyes hkey
    simp [retryLoop, hp, hyes, hkey]
  · intro hins hkeys N
    obtain ⟨st, tail, heq, hlen, hall⟩ := retryLoop_allCollide ins keys hins hkeys N s session [] 0
    refine ⟨st, tail, ?_, hlen, hall⟩
    unfold RetrySessionInsert
    simpa using heq

/-! ## C8 — session key generation -/

theorem base64Sextets_length : ∀ l : List Nat,
    (base64Sextets l).length = (4 * l.length + 2) / 3
  | [] => by simp [base64Sextets]
  | [b1] => by simp [base64Sextets]
  | [b1, b2] => by simp [base64Sextets]
  | b1 :: b2 :: b3 :: rest => by
    have ih := base64Sextets_length rest
    simp only [base64Sextets, List.length_cons, ih]
    omega

theorem base64Sextets_lt : ∀ l : List Nat, (∀ b ∈ l, b < 256) →
    ∀ x ∈ base64Sextets l, x < 64
  | [], _ => by simp [base64Sextets]
  | [b1], h => by
    have h1 := h b1 (by simp)
    simp only [base64Sextets, List.mem_cons, List.not_mem_nil, or_false]
    rintro x (rfl | rfl) <;> omega
  | [b1, b2], h => by
    have h1 := h b1 (by simp)
    have h2 := h b2 (by simp)
    simp only [base64Sextets, List.mem_cons, List.not_mem_nil, or_false]
    rintro x (rfl | rfl | rfl) <;> omega
  | b1 :: b2 :: b3 :: rest, h => by
    have h1 := h b1 (by simp)
    have h2 := h b2 (by simp)
    have h3 := h b3 (by simp)
    have ih := base64Sextets_lt rest (fun b hb => h b (by simp [hb]))
    simp only [base64Sextets, List.mem_cons]
    rintro x (rfl | rfl | rfl | rfl | hx)
    · omega
    · omega
    · omega
    · omega
    · exact ih x hx

theorem base64UrlAlphabet_length : base64UrlAlphabet.toList.length = 64 := rfl

/-- C8: every successfully generated session key is the unpadded URL-safe
base64 encoding of the 29 (`SessionKeyBytes`) drawn bytes: a string of
exactly 39 characters, each from the URL-safe base64 alphabet. -/
theorem genSessionKey_spec (readResult : Except Err (Nat → Nat)) (key : String)
    (h : GenSessionKey readResult = .ok key) :
    key.length = 39 ∧ ∀ c ∈ key.toList, c ∈ base64UrlAlphabet.toList := by
  cases readResult with
  | error e => simp [GenSessionKey] at h
  | ok rand =>
    simp only [GenSessionKey, Except.ok.injEq] at h
    subst h
    have hbytes : ∀ b ∈ (List.range SessionKeyBytes).map (fun i => rand i % 256), b < 256 := by
      intro b hb
      obtain ⟨i, _, rfl⟩ := List.mem_map.mp hb
      exact Nat.mod_lt _ (by norm_num)
    constructor
    · have hlen : ((List.range SessionKeyBytes).map (fun i => rand i % 256)).length = 29 := by
        simp [SessionKeyBytes]
      show ((base64Sextets _).map _).length = 39
      simp [base64Sextets_length, hlen]
    · intro c hc
      obtain ⟨x, hx, rfl⟩ := List.mem_map.mp hc
      have hxlt : x < base64UrlAlphabet.toList.length := by
        rw [base64UrlAlphabet_length]
        exact base64Sextets_lt _ hbytes x hx
      rw [List.getD_eq_getElem _ _ hxlt]
      exact List.getElem_mem hxlt

/-- C8 witness: the key generated from the all-zero byte stream has 39
characters. -/
theorem genSessionKey_spec_witness :
    (rawURLEncode ((List.range SessionKeyBytes).map
      (fun i => (fun _ => (0 : Nat)) i % 256))).length = 39 :=
  (genSessionKey_spec (.ok (fun _ => 0)) _ rfl).1

/-! ## C9 — template substitution -/

theorem isPre_append_self : ∀ (l t : List Char), isPre l (l ++ t) = true
  | [], _ => rfl
  | c :: cs, t => by simp [isPre, isPre_append_self cs t]

theorem isPre_le_of_both : ∀ (a b s : List Char), isPre a s = true → isPre b s = true →
    a.length ≤ b.length → isPre a b = true
  | [], _, _, _, _, _ => rfl
  | c :: a', [], s, _, _, hlen => by simp at hlen
  | c :: a', d :: b', [], ha, _, _ => by simp [isPre] at ha
  | c :: a', d :: b', e :: s', ha, hb, hlen => by
    simp only [isPre, Bool.and_eq_true, decide_eq_true_eq] at ha hb ⊢
    refine ⟨ha.1.trans hb.1.symm, ?_⟩
    exact isPre_le_of_both a' b' s' ha.2 hb.2 (by simpa using hlen)

theorem dollarSplit : ∀ (a b x y : List Char), '$' ∉ a → '$' ∉ b →
    a ++ '$' :: x = b ++ '$' :: y → a = b ∧ x = y
  | [], [], x, y, _, _, h => by simpa using h
  | [], d :: b', x, y, _, hb, h => by
    exfalso
    apply hb
    injection h with h1 _
    rw [← h1]
    exact List.mem_cons_self _ _
  | c :: a', [], x, y, ha, _, h => by
    exfalso
    apply ha
    injection h with h1 _
    rw [h1]
    exact List.mem_cons_self _ _
  | c :: a', d :: b', x, y, ha, hb, h => by
    simp only [List.mem_cons, not_or] at ha hb
    injection h with h1 h2
    obtain ⟨h3, h4⟩ := dollarSplit a' b' x y ha.2 hb.2 h2
    exact ⟨by rw [h1, h3], h4⟩

/-- Two distinct `$`-delimited placeholder tokens never match at the same
position: the first token is not a prefix of the second followed by
anything. -/
theorem isPre_exists : ∀ (p s : List Char), isPre p s = true → ∃ t, p ++ t = s
  | [], s, _ => ⟨s, rfl⟩
  | _ :: _, [], h => by simp [isPre] at h
  | c :: p', d :: s', h => by
    simp only [isPre, Bool.and_eq_true, decide_eq_true_eq] at h
    obtain ⟨t, ht⟩ := isPre_exists p' s' h.2
    exact ⟨t, by rw [List.cons_append, h.1, ht]⟩

theorem noCrossTok (n1 n2 : String) (h1 : '$' ∉ n1.toList) (h2 : '$' ∉ n2.toList)
    (hne : n1.toList ≠ n2.toList) (rest : List Char) :
    isPre (tokL n1) (tokL n2 ++ rest) = false := by
  by_contra hcon
  rw [Bool.not_eq_false] at hcon
  obtain ⟨t, ht⟩ := isPre_exists _ _ hcon
  have ht' : n1.toList ++ '$' :: t = n2.toList ++ '$' :: rest := by
    simpa [tokL] using ht
  exact hne (dollarSplit _ _ _ _ h1 h2 ht').1

theorem find?_congr_perm {α : Type} (p : α → Bool) :
    ∀ {l l' : List α}, l.Perm l' →
      (∀ x ∈ l, ∀ y ∈ l, p x = true → p y = true → x = y) →
      l.find? p = l'.find? p := by
  intro l l' hperm
  induction hperm with
  | nil => intro _; rfl
  | cons a h ih =>
    intro huniq
    by_cases hpa : p a
    · simp [List.find?_cons, hpa]
    · simp only [List.find?_cons, hpa, cond_false]
      exact ih fun x hx y hy => huniq x (List.mem_cons_of_mem a hx) y (List.mem_cons_of_mem a hy)
  | swap a b l =>
    intro huniq
    by_cases hpa : p a <;> by_cases hpb : p b
    · have hab : b = a := huniq b (by simp) a (by simp) hpb hpa
      rw [hab]
    · simp [List.find?_cons, hpa, hpb]
    · simp [List.find?_cons, hpa, hpb]
    · simp [List.find?_cons, hpa, hpb]
  | trans h1 h2 ih1 ih2 =>
    intro huniq
    exact (ih1 huniq).trans
      (ih2 fun x hx y hy => huniq x (h1.mem_iff.mpr hx) y (h1.mem_iff.mpr hy))

theorem goodPairs_unique {pairs : List (String × String)} (hg : GoodPairs pairs)
    (s : List Char) :
    ∀ x ∈ pairs, ∀ y ∈ pairs,
      (!x.1.toList.isEmpty && isPre x.1.toList s) = true →
      (!y.1.toList.isEmpty && isPre y.1.toList s) = true → x = y := by
  intro x hx y hy hpx hpy
  simp only [Bool.and_eq_true] at hpx hpy
  by_cases hk : x.1 = y.1
  · exact hg.2.1 x hx y hy hk
  · exfalso
    rcases le_total x.1.toList.length y.1.toList.length with hle | hle
    · have hb := isPre_le_of_both _ _ _ hpx.2 hpy.2 hle
      rw [hg.2.2 x hx y hy hk] at hb
      exact Bool.false_ne_true hb
    · have hb := isPre_le_of_both _ _ _ hpy.2 hpx.2 hle
      rw [hg.2.2 y hy x hx (Ne.symm hk)] at hb
      exact Bool.false_ne_true hb

/-- Replacement is invariant under the enumeration order of a well-formed
configuration: the compiled argument order does not matter. -/
theorem goReplaceFuel_congr_perm {pairs pairs' : List (String × String)}
    (hg : GoodPairs pairs) (hperm : pairs.Perm pairs') :
    ∀ (fuel : Nat) (s : List Char),
      goReplaceFuel pairs fuel s = goReplaceFuel pairs' fuel s := by
  intro fuel
  induction fuel with
  | zero => intro s; rfl
  | succ f ih =>
    intro s
    cases s with
    | nil => rfl
    | cons c rest =>
      have hlookup : lookupMatch pairs (c :: rest) = lookupMatch pairs' (c :: rest) :=
        find?_congr_perm _ hperm (goodPairs_unique hg (c :: rest))
      simp only [goReplaceFuel]
      rw [hlookup]
      cases hm : lookupMatch pairs' (c :: rest) with
      | none => rw [ih]
      | some kv => cases kv with | mk k v => simp only [ih]

theorem goReplaceFuel_nil (pairs : List (String × String)) :
    ∀ fuel : Nat, goReplaceFuel pairs fuel [] = []
  | 0 => rfl
  | _ + 1 => rfl

theorem lookupMatch_none_of_head {pairs : List (String × String)}
    (hk : ∀ p ∈ pairs, ∃ t, p.1.toList = '$' :: t) (c : Char) (rest : List Char)
    (hc : c ≠ '$') : lookupMatch pairs (c :: rest) = none := by
  apply List.find?_eq_none.mpr
  intro p hp
  obtain ⟨t, ht⟩ := hk p hp
  have ht' : p.1.data = '$' :: t := ht
  simp [ht', isPre, Ne.symm hc]

/-- A placeholder-free literal passes through the replacer unchanged when
every key starts with `$`. -/
theorem goReplaceFuel_lit {pairs : List (String × String)}
    (hk : ∀ p ∈ pairs, ∃ t, p.1.toList = '$' :: t) :
    ∀ (cs rest : List Char) (fuel : Nat), (∀ c ∈ cs, c ≠ '$') → cs.length ≤ fuel →
      goReplaceFuel pairs fuel (cs ++ rest) =
        cs ++ goReplaceFuel pairs (fuel - cs.length) rest := by
  intro cs
  induction cs with
  | nil => intro rest fuel _ _; simp
  | cons c cs' ih =>
    intro rest fuel hc hfuel
    cases fuel with
    | zero => exact absurd hfuel (by simp)
    | succ f =>
      have hchar : c ≠ '$' := hc c (by simp)
      simp only [List.cons_append, goReplaceFuel,
        lookupMatch_none_of_head hk c _ hchar, List.append_eq]
      rw [ih rest f (fun x hx => hc x (by simp [hx])) (by simpa using hfuel)]
      simp [Nat.succ_sub_succ_eq_sub]

/-- The canonical two-placeholder configuration. -/
def pairs2 (n1 n2 v1 v2 : String) : List (String × String) :=
  [(⟨tokL n1⟩, v1), (⟨tokL n2⟩, v2)]

/-- At the first token, the replacer emits `v1` verbatim and consumes
exactly the token. -/
theorem goReplaceFuel_tokA (n1 n2 v1 v2 : String) (rest : List Char) (f : Nat) :
    goReplaceFuel (pairs2 n1 n2 v1 v2) (f + 1) (tokL n1 ++ rest) =
      v1.toList ++ goReplaceFuel (pairs2 n1 n2 v1 v2) f rest := by
  have hshape : tokL n1 ++ rest = '$' :: (n1.toList ++ '$' :: rest) := by simp [tokL]
  have hfind : lookupMatch (pairs2 n1 n2 v1 v2) ('$' :: (n1.toList ++ '$' :: rest)) =
      some (⟨tokL n1⟩, v1) := by
    rw [← hshape]
    unfold lookupMatch pairs2
    simp only [List.find?]
    rw [show ((⟨tokL n1⟩ : String).toList = tokL n1) from rfl, isPre_append_self]
    simp [tokL]
  have hdrop : List.drop ((⟨tokL n1⟩ : String).toList.length - 1)
      (n1.toList ++ '$' :: rest) = rest := by
    rw [show ((⟨tokL n1⟩ : String).toList.length - 1 = (n1.toList ++ ['$']).length) from
      (by simp [tokL]),
      show (n1.toList ++ '$' :: rest = (n1.toList ++ ['$']) ++ rest) from (by simp),
      List.drop_left]
  rw [hshape]
  simp only [goReplaceFuel, hfind, hdrop]

/-- At the second token, the first key cannot match (distinct placeholder
tokens), so the replacer emits `v2` verbatim and consumes the token. -/
theorem goReplaceFuel_tokB (n1 n2 v1 v2 : String) (rest : List Char)
    (hno : ∀ r, isPre (tokL n1) (tokL n2 ++ r) = false) (f : Nat) :
    goReplaceFuel (pairs2 n1 n2 v1 v2) (f + 1) (tokL n2 ++ rest) =
      v2.toList ++ goReplaceFuel (pairs2 n1 n2 v1 v2) f rest := by
  have hshape : tokL n2 ++ rest = '$' :: (n2.toList ++ '$' :: rest) := by simp [tokL]
  have hfind : lookupMatch (pairs2 n1 n2 v1 v2) ('$' :: (n2.toList ++ '$' :: rest)) =
      some (⟨tokL n2⟩, v2) := by
    rw [← hshape]
    unfold lookupMatch pairs2
    simp only [List.find?]
    rw [show ((⟨tokL n1⟩ : String).toList = tokL n1) from rfl,
      show ((⟨tokL n2⟩ : String).toList = tokL n2) from rfl,
      hno rest, isPre_append_self]
    simp [tokL]
  have hdrop : List.drop ((⟨tokL n2⟩ : String).toList.length - 1)
      (n2.toList ++ '$' :: rest) = rest := by
    rw [show ((⟨tokL n2⟩ : String).toList.length - 1 = (n2.toList ++ ['$']).length) from
      (by simp [tokL]),
      show (n2.toList ++ '$' :: rest = (n2.toList ++ ['$']) ++ rest) from (by simp),
      List.drop_left]
  rw [hshape]
  simp only [goReplaceFuel, hfind, hdrop]

theorem GoodPairs.of_perm {l l' : List (String × String)} (h : l.Perm l')
    (hg : GoodPairs l') : GoodPairs l :=
  ⟨fun p hp => hg.1 p (h.mem_iff.mp hp),
   fun p hp q hq => hg.2.1 p (h.mem_iff.mp hp) q (h.mem_iff.mp hq),
   fun p hp q hq => hg.2.2 p (h.mem_iff.mp hp) q (h.mem_iff.mp hq)⟩

theorem goodPairs_pairs2 (n1 n2 v1 v2 : String) (h1 : '$' ∉ n1.toList)
    (h2 : '$' ∉ n2.toList) (hne : n1.toList ≠ n2.toList) :
    GoodPairs (pairs2 n1 n2 v1 v2) := by
  have hkeys : (⟨tokL n1⟩ : String) ≠ ⟨tokL n2⟩ := by
    intro h
    have hl : tokL n1 = tokL n2 := congrArg String.toList h
    simp only [tokL, List.cons.injEq, true_and] at hl
    exact hne (dollarSplit n1.toList n2.toList [] [] h1 h2 (by simpa using hl)).1
  refine ⟨?_, ?_, ?_⟩
  · intro p hp
    simp only [pairs2, List.mem_cons, List.not_mem_nil, or_false] at hp
    rcases hp with rfl | rfl <;> simp [tokL]
  · intro p hp q hq hpq
    simp only [pairs2, List.mem_cons, List.not_mem_nil, or_false] at hp hq
    rcases hp with rfl | rfl <;> rcases hq with rfl | rfl <;>
      first
      | rfl
      | (exact absurd hpq hkeys)
      | (exact absurd hpq (Ne.symm hkeys))
  · intro p hp q hq hpq
    simp only [pairs2, List.mem_cons, List.not_mem_nil, or_false] at hp hq
    rcases hp with rfl | rfl <;> rcases hq with rfl | rfl
    · exact absurd rfl hpq
    · have := noCrossTok n1 n2 h1 h2 hne []
      simpa using this
    · have := noCrossTok n2 n1 h2 h1 (fun h => hne h.symm) []
      simpa using this
    · exact absurd rfl hpq

/-- A template built from placeholder-free literals and two distinct
placeholder tokens is replaced without leaving any `$` when both values
are placeholder-free. -/
theorem noDollar_goReplaceFuel (n1 n2 v1 v2 : String) (h1 : '$' ∉ n1.toList)
    (h2 : '$' ∉ n2.toList) (hne : n1.toList ≠ n2.toList)
    (hv1 : '$' ∉ v1.toList) (hv2 : '$' ∉ v2.toList) :
    ∀ (segs : List Seg) (fuel : Nat), (inputOfL n1 n2 segs).length ≤ fuel →
      (∀ s, Seg.lit s ∈ segs → '$' ∉ s.toList) →
      '$' ∉ goReplaceFuel (pairs2 n1 n2 v1 v2) fuel (inputOfL n1 n2 segs) := by
  have hkeysDollar : ∀ p ∈ pairs2 n1 n2 v1 v2, ∃ t, p.1.toList = '$' :: t := by
    intro p hp
    simp only [pairs2, List.mem_cons, List.not_mem_nil, or_false] at hp
    rcases hp with rfl | rfl <;> exact ⟨_, rfl⟩
  intro segs
  induction segs with
  | nil =>
    intro fuel _ _
    rw [show inputOfL n1 n2 [] = [] from rfl, goReplaceFuel_nil]
    simp
  | cons seg rest ih =>
    intro fuel hfuel hlit
    cases seg with
    | lit s =>
      have hs : '$' ∉ s.toList := hlit s (by simp)
      have hschars : ∀ c ∈ s.toList, c ≠ '$' := fun c hc h => hs (h ▸ hc)
      have hlen : s.toList.length ≤ fuel := by
        simp only [inputOfL, List.length_append] at hfuel
        omega
      rw [show inputOfL n1 n2 (Seg.lit s :: rest) = s.toList ++ inputOfL n1 n2 rest from rfl,
        goReplaceFuel_lit hkeysDollar s.toList _ fuel hschars hlen]
      intro hmem
      rcases List.mem_append.mp hmem with h | h
      · exact hs h
      · have hlen' : (inputOfL n1 n2 rest).length ≤ fuel - s.toList.length := by
          simp only [inputOfL, List.length_append] at hfuel
          omega
        exact ih (fuel - s.toList.length) hlen' (fun x hx => hlit x (by simp [hx])) h
    | tokA =>
      cases fuel with
      | zero =>
        exfalso
        simp [inputOfL, tokL] at hfuel
      | succ f =>
        rw [show inputOfL n1 n2 (Seg.tokA :: rest) = tokL n1 ++ inputOfL n1 n2 rest from rfl,
          goReplaceFuel_tokA]
        intro hmem
        rcases List.mem_append.mp hmem with h | h
        · exact hv1 h
        · have hlen' : (inputOfL n1 n2 rest).length ≤ f := by
            simp only [inputOfL, List.length_append, tokL, List.length_cons] at hfuel
            omega
          exact ih f hlen' (fun x hx => hlit x (by simp [hx])) h
    | tokB =>
      cases fuel with
      | zero =>
        exfalso
        simp [inputOfL, tokL] at hfuel
      | succ f =>
        rw [show inputOfL n1 n2 (Seg.tokB :: rest) = tokL n2 ++ inputOfL n1 n2 rest from rfl,
          goReplaceFuel_tokB n1 n2 v1 v2 _ (noCrossTok n1 n2 h1 h2 hne)]
        intro hmem
        rcases List.mem_append.mp hmem with h | h
        · exact hv2 h
        · have hlen' : (inputOfL n1 n2 rest).length ≤ f := by
            simp only [inputOfL, List.length_append, tokL, List.length_cons] at hfuel
            omega
          exact ih f hlen' (fun x hx => hlit x (by simp [hx])) h

/-- C9 (amended): (i) on a well-formed configuration — nonempty, pairwise
distinct keys none of which is a prefix of another, as distinct `$NAME$`
placeholders always are — `Apply` is a pure function of the entry SET and
the input: any two enumerations of the same entries give the same result;
(ii) substitution is single-pass: with entries mapping the first
placeholder token to the second and the second to some value, applying to
the first token yields the second token verbatim — substituted text is
never re-scanned; (iii) applying a replacer holding two distinct
placeholder-to-literal pairs to any string interleaving placeholder-free
literals with the two tokens (both occurring) leaves no `$`, hence zero
residual placeholder syntax. -/
theorem sqlTemplateReplacer_apply_spec :
    (∀ (t t' : SQLTemplateReplacer) (s : String), t.entries.Perm t'.entries →
      GoodPairs t.entries → t.Apply s = t'.Apply s) ∧
    (∀ n1 n2 v2 : String, '$' ∉ n1.toList → '$' ∉ n2.toList → n1.toList ≠ n2.toList →
      SQLTemplateReplacer.Apply ⟨[(⟨tokL n1⟩, ⟨tokL n2⟩), (⟨tokL n2⟩, v2)]⟩ ⟨tokL n1⟩ =
        ⟨tokL n2⟩) ∧
    (∀ (n1 n2 v1 v2 : String) (segs : List Seg) (t : SQLTemplateReplacer),
      '$' ∉ n1.toList → '$' ∉ n2.toList → n1.toList ≠ n2.toList →
      '$' ∉ v1.toList → '$' ∉ v2.toList →
      (∀ s, Seg.lit s ∈ segs → '$' ∉ s.toList) →
      t.entries.Perm (pairs2 n1 n2 v1 v2) →
      Seg.tokA ∈ segs → Seg.tokB ∈ segs →
      '$' ∉ (t.Apply ⟨inputOfL n1 n2 segs⟩).toList) := by
  refine ⟨?_, ?_, ?_⟩
  · intro t t' s hperm hg
    unfold SQLTemplateReplacer.Apply goReplace
    exact congrArg String.mk (goReplaceFuel_congr_perm hg hperm _ _)
  · intro n1 n2 v2 h1 h2 hne
    have h := goReplaceFuel_tokA n1 n2 (⟨tokL n2⟩ : String) v2 [] (n1.toList.length + 1)
    rw [List.append_nil, goReplaceFuel_nil, List.append_nil] at h
    unfold SQLTemplateReplacer.Apply goReplace
    apply congrArg String.mk
    rw [show ((⟨tokL n1⟩ : String).toList = tokL n1) from rfl,
      show ((tokL n1).length = n1.toList.length + 1 + 1) from (by simp [tokL])]
    exact h
  · intro n1 n2 v1 v2 segs t h1 h2 hne hv1 hv2 hlit hperm _hA _hB
    have hg2 : GoodPairs (pairs2 n1 n2 v1 v2) := goodPairs_pairs2 n1 n2 v1 v2 h1 h2 hne
    have happly : t.Apply ⟨inputOfL n1 n2 segs⟩ =
        goReplace (pairs2 n1 n2 v1 v2) ⟨inputOfL n1 n2 segs⟩ := by
      unfold SQLTemplateReplacer.Apply goReplace
      exact congrArg String.mk
        (goReplaceFuel_congr_perm (GoodPairs.of_perm hperm hg2) hperm _ _)
    rw [happly]
    exact noDollar_goReplaceFuel n1 n2 v1 v2 h1 h2 hne hv1 hv2 segs _ (le_refl _) hlit

/-- C9 counterexample to the claim as stated: `Apply` is NOT always a pure
function of the configuration and the input.  The configuration
`{"$A$" ↦ "", "$A$$A$" ↦ "X"}` (one key a prefix of the other) gives
different results on the input `"$A$$A$"` under its two possible map
enumeration orders — Go does not specify the iteration order
`computeReplacer` sees. -/
theorem sqlTemplateReplacer_apply_cex :
    ([("$A$", ""), ("$A$$A$", "X")] : List (String × String)).Perm
        [("$A$$A$", "X"), ("$A$", "")] ∧
    SQLTemplateReplacer.Apply ⟨[("$A$", ""), ("$A$$A$", "X")]⟩ "$A$$A$" = "" ∧
    SQLTemplateReplacer.Apply ⟨[("$A$$A$", "X"), ("$A$", "")]⟩ "$A$$A$" = "X" ∧
    ("" : String) ≠ "X" :=
  ⟨List.Perm.swap _ _ _, by rfl, by rfl, by decide⟩

end GopherBounceDB
